import Mathlib

/-!
Shallow embedding of the order lifecycle and token-issuance core of the
Smart Digital Canteen System (cart module, orders module, `utils.js`,
`admin.js`).

Modelling conventions:
* JavaScript numbers used for money are modelled as integers (`Int`) --
  every money value in the source is an integer-valued numeral -- and
  quantities as `Nat`; the one true division of the code, the average
  order value of the daily report, is taken in `Rat` over casts.
* Timestamps (`new Date().toISOString()`) are modelled as `Nat`
  milliseconds since the epoch; comparison of ISO strings coincides with
  numeric comparison, and `toDateString()` equality coincides with
  equality of the calendar-day number `dayOf`.
* The calendar components `getFullYear` / `getMonth() + 1` / `getDate`
  are computed from the day number with the standard civil-from-days
  Gregorian algorithm (timezone fixed to UTC).
* Each synchronous operation receives one clock value `now`; the several
  `new Date()` calls inside one operation all observe it.
* `generateId` (`Date.now` plus `Math.random`) is nondeterministic, so
  the fresh id is passed to `createOrder` as a parameter.
* `Array.prototype.sort` with a numeric comparator is, observably, a
  stable sort by the comparator key; it is modelled by `insertionSort`.
* The mutable localStorage state read by the cart and order modules is
  bundled into an explicit state record `St`, passed and returned.
-/

namespace Canteen

/-- Order statuses, the values of the `ORDER_STATUS` string table. -/
inductive Status where
  | pending
  | preparing
  | ready
  | completed
  | cancelled
deriving DecidableEq, Repr

/-- String value of a status, as stored in `ORDER_STATUS`. -/
def statusText : Status → String
  | .pending => "pending"
  | .preparing => "preparing"
  | .ready => "ready"
  | .completed => "completed"
  | .cancelled => "cancelled"

/-- Milliseconds per calendar day. -/
def msPerDay : Nat := 86400000

/-- Calendar-day number of a timestamp (model of `toDateString` identity). -/
def dayOf (t : Nat) : Nat := t / msPerDay

/-- Gregorian (year, month, day) of a day number counted from 1970-01-01,
the civil-from-days algorithm; models `getFullYear`, `getMonth() + 1`
and `getDate` on a UTC clock. -/
def civilFromDays (z : Nat) : Nat × Nat × Nat :=
  let z := z + 719468
  let era := z / 146097
  let doe := z % 146097
  let yoe := (doe - doe / 1460 + doe / 36524 - doe / 146096) / 365
  let y := yoe + era * 400
  let doy := doe - (365 * yoe + yoe / 4 - yoe / 100)
  let mp := (5 * doy + 2) / 153
  let d := doy - (153 * mp + 2) / 5 + 1
  let m := if mp < 10 then mp + 3 else mp - 9
  (if m ≤ 2 then y + 1 else y, m, d)

/-- Decimal digit as a character, `'0'` + n. -/
def digitChar (n : Nat) : Char := Char.ofNat (48 + n)

/-- Fuel-driven accumulator loop producing the decimal digits of `n`
in front of `acc`; `fuel ≥ n` suffices. -/
def natDigitsAux : Nat → Nat → List Char → List Char
  | 0, _, acc => acc
  | fuel + 1, n, acc =>
    if n = 0 then acc else natDigitsAux fuel (n / 10) (digitChar (n % 10) :: acc)

/-- Model of JavaScript `Number.prototype.toString` on a natural number. -/
def natToString (n : Nat) : String :=
  if n = 0 then "0" else String.mk (natDigitsAux n n [])

/-- Model of `String.prototype.padStart(w, c)`. -/
def padStart (s : String) (w : Nat) (c : Char) : String :=
  String.mk (List.replicate (w - s.length) c ++ s.data)

/-- The `YYYYMMDD` date string built in `generateToken`:
`getFullYear` then 2-padded month and day. -/
def dateString (day : Nat) : String :=
  let ymd := civilFromDays day
  natToString ymd.1 ++ padStart (natToString ymd.2.1) 2 '0'
    ++ padStart (natToString ymd.2.2) 2 '0'

/-- Model of `toDateString()` equality of two timestamps. -/
def sameDayB (a b : Nat) : Bool := dayOf a == dayOf b

/-- A cart line as stored in `canteen_cart` by `addToCart`. -/
structure CartItem where
  id : String
  name : String
  price : Int
  image : String
  quantity : Nat
deriving DecidableEq, Repr

/-- The fields of the current user read by `createOrder`. -/
structure User where
  id : String
  name : String
  email : String
deriving DecidableEq, Repr

/-- A line of `order.items` as built by `createOrder`. -/
structure OrderItem where
  id : String
  name : String
  price : Int
  quantity : Nat
  subtotal : Int
deriving DecidableEq, Repr

/-- An entry of `order.statusHistory`. -/
structure HistoryEntry where
  status : Status
  timestamp : Nat
  note : String
deriving DecidableEq, Repr

/-- An order record as persisted in `canteen_orders`. `completedAt` is
absent until first written, hence an `Option`. -/
structure Order where
  id : String
  token : String
  userId : String
  userName : String
  userEmail : String
  items : List OrderItem
  subtotal : Int
  tax : Int
  total : Int
  status : Status
  statusHistory : List HistoryEntry
  createdAt : Nat
  updatedAt : Nat
  completedAt : Option Nat
deriving DecidableEq, Repr

/-- The storage state read and written by the cart and order modules. -/
structure St where
  cart : List CartItem
  orders : List Order
  currentUser : Option User
deriving DecidableEq, Repr

/-- Structured `{success, message, order?}` result of an operation. -/
structure OpResult where
  success : Bool
  message : String
  order : Option Order
deriving DecidableEq, Repr

/-- `getCartSubtotal`: reduce over the cart of `price * quantity`. -/
def getCartSubtotal (cart : List CartItem) : Int :=
  cart.foldl (fun total item => total + item.price * (item.quantity : Int)) 0

/-- The record computed by `getCartTotals`. -/
structure Totals where
  subtotal : Int
  tax : Int
  serviceFee : Int
  total : Int
deriving DecidableEq, Repr

/-- `getCartTotals`: subtotal plus (zero) tax and service fee. -/
def getCartTotals (cart : List CartItem) : Totals :=
  let subtotal := getCartSubtotal cart
  let tax : Int := 0
  let serviceFee : Int := 0
  let total := subtotal + tax + serviceFee
  { subtotal := subtotal, tax := tax, serviceFee := serviceFee, total := total }

/-- `generateToken`: `TKN-YYYYMMDD-NNNN`, where `NNNN` is the number of
already-stored orders created today, plus one, padded to 4 digits. -/
def generateToken (now : Nat) (orders : List Order) : String :=
  let dateStr := dateString (dayOf now)
  let todayOrders := orders.filter (fun o => sameDayB o.createdAt now)
  let sequenceNum := padStart (natToString (todayOrders.length + 1)) 4 '0'
  "TKN-" ++ dateStr ++ "-" ++ sequenceNum

/-- `createOrder`: validates the cart and the session, snapshots the cart
into an order with a fresh token, appends it to the order collection and
clears the cart. -/
def createOrder (now : Nat) (freshId : String) (st : St) : OpResult × St :=
  if st.cart.isEmpty then
    ({ success := false, message := "Cart is empty", order := none }, st)
  else
    match st.currentUser with
    | none =>
      ({ success := false, message := "Please login to place order", order := none }, st)
    | some user =>
      let totals := getCartTotals st.cart
      let token := generateToken now st.orders
      let order : Order :=
        { id := freshId
          token := token
          userId := user.id
          userName := user.name
          userEmail := user.email
          items := st.cart.map (fun item =>
            { id := item.id
              name := item.name
              price := item.price
              quantity := item.quantity
              subtotal := item.price * (item.quantity : Int) })
          subtotal := totals.subtotal
          tax := totals.tax
          total := totals.total
          status := Status.pending
          statusHistory :=
            [{ status := Status.pending, timestamp := now, note := "Order placed" }]
          createdAt := now
          updatedAt := now
          completedAt := none }
      ({ success := true, message := "Order placed successfully!", order := some order },
       { st with orders := st.orders ++ [order], cart := [] })

/-- `getOrderByToken`: first stored order with the given token, if any. -/
def getOrderByToken (token : String) (orders : List Order) : Option Order :=
  orders.find? (fun o => o.token == token)

/-- Ascending comparison by `createdAt`, the sort key of `getActiveOrders`. -/
def byCreatedAsc (a b : Order) : Prop := a.createdAt ≤ b.createdAt

instance : DecidableRel byCreatedAsc := fun a b => Nat.decLe a.createdAt b.createdAt

instance : IsTotal Order byCreatedAsc := ⟨fun a b => Nat.le_total a.createdAt b.createdAt⟩

instance : IsTrans Order byCreatedAsc := ⟨fun _ _ _ hab hbc => Nat.le_trans hab hbc⟩

/-- `getActiveOrders`: orders whose status is pending, preparing or ready,
sorted ascending by `createdAt`. -/
def getActiveOrders (orders : List Order) : List Order :=
  let activeStatuses := [Status.pending, Status.preparing, Status.ready]
  List.insertionSort byCreatedAsc
    (orders.filter (fun o => activeStatuses.contains o.status))

/-- `updateOrderStatus`: find the order by id, append a history entry,
set the status and `updatedAt`, and on a completed transition also
`completedAt`; unknown ids fail without touching the collection. -/
def updateOrderStatus (now : Nat) (orderId : String) (newStatus : Status)
    (note : String) (orders : List Order) : OpResult × List Order :=
  match orders.findIdx? (fun o => o.id == orderId) with
  | none => ({ success := false, message := "Order not found", order := none }, orders)
  | some i =>
    match orders[i]? with
    | none => ({ success := false, message := "Order not found", order := none }, orders)
    | some order =>
      let updated : Order :=
        { order with
          statusHistory := order.statusHistory ++
            [{ status := newStatus
               timestamp := now
               note := if note = "" then "Status changed to " ++ statusText newStatus else note }]
          status := newStatus
          updatedAt := now
          completedAt := if newStatus = Status.completed then some now else order.completedAt }
      ({ success := true
         message := "Order status updated to " ++ statusText newStatus
         order := some updated },
       orders.set i updated)

/-- Insertion-ordered tally of one item name, as mutation of the
`itemCounts` object in `getDailyReport`. -/
def bumpCount (counts : List (String × Nat)) (name : String) (q : Nat) :
    List (String × Nat) :=
  match counts with
  | [] => [(name, q)]
  | (n, c) :: rest =>
    if n = name then (n, c + q) :: rest else (n, c) :: bumpCount rest name q

/-- Quantity tally over all items of the given orders, keys in first-seen
order, as `Object.entries(itemCounts)`. -/
def itemCountsOf (orders : List Order) : List (String × Nat) :=
  orders.foldl
    (fun counts o => o.items.foldl (fun cs it => bumpCount cs it.name it.quantity) counts)
    []

/-- Descending comparison by count, the sort key of `popularItems`. -/
def byCountDesc (a b : String × Nat) : Prop := b.2 ≤ a.2

instance : DecidableRel byCountDesc := fun a b => Nat.decLe b.2 a.2

/-- The record computed by `getDailyReport`. -/
structure Report where
  date : Nat
  totalOrders : Nat
  completedOrders : Nat
  cancelledOrders : Nat
  revenue : Int
  averageOrderValue : Rat
  popularItems : List (String × Nat)
deriving DecidableEq, Repr

/-- `getDailyReport`: statistics over the orders created on the calendar
day of `date`; revenue and popular items range over the completed ones. -/
def getDailyReport (orders : List Order) (date : Nat) : Report :=
  let dayOrders := orders.filter (fun o => sameDayB o.createdAt date)
  let completedOrders := dayOrders.filter (fun o => o.status == Status.completed)
  let popularItems :=
    (List.insertionSort byCountDesc (itemCountsOf completedOrders)).take 5
  { date := dayOf date
    totalOrders := dayOrders.length
    completedOrders := completedOrders.length
    cancelledOrders := (dayOrders.filter (fun o => o.status == Status.cancelled)).length
    revenue := completedOrders.foldl (fun sum o => sum + o.total) 0
    averageOrderValue :=
      if 0 < completedOrders.length then
        ((completedOrders.foldl (fun sum o => sum + o.total) 0 : Int) : Rat)
          / (completedOrders.length : Rat)
      else 0
    popularItems := popularItems }

/-- The status invariant of the data model: the stored `status` equals
the status of the last `statusHistory` entry. -/
def statusInv (o : Order) : Prop :=
  o.statusHistory.getLast?.map HistoryEntry.status = some o.status

/-- One order-creation request of a sequential scenario: the clock value,
the fresh id, and the cart and session in place when the customer
presses the button. -/
structure CreateReq where
  now : Nat
  freshId : String
  cart : List CartItem
  user : User
deriving DecidableEq, Repr

/-- Run one creation: install the request's cart and session and call
`createOrder`, keeping the resulting state. -/
def runCreate (st : St) (r : CreateReq) : St :=
  (createOrder r.now r.freshId { st with cart := r.cart, currentUser := some r.user }).2

/-- Run a sequence of creations in order. -/
def runCreates (st : St) (rs : List CreateReq) : St :=
  rs.foldl runCreate st

/-- Number of stored orders created on calendar day `d`. -/
def countOnDay (d : Nat) (orders : List Order) : Nat :=
  (orders.filter (fun o => dayOf o.createdAt == d)).length

/-- The token of sequence number `n` on day `d`, the `TKN-YYYYMMDD-NNNN`
shape of the claims. -/
def mkToken (d n : Nat) : String :=
  "TKN-" ++ dateString d ++ "-" ++ padStart (natToString n) 4 '0'

/-- Reference decimal-digit list of a natural number (no fuel). -/
def natDigits (n : Nat) : List Char :=
  if h : n = 0 then [] else natDigits (n / 10) ++ [digitChar (n % 10)]
decreasing_by exact Nat.div_lt_self (Nat.pos_of_ne_zero h) (by decide)

/-- Numeric value of a digit character. -/
def digitVal (c : Char) : Nat := c.toNat - 48

/-- Decimal value of a digit string, folded from an accumulator. -/
def valFrom (a : Nat) (l : List Char) : Nat :=
  l.foldl (fun acc c => 10 * acc + digitVal c) a

/-- Fixture: a customer. -/
def sampleUser : User :=
  { id := "u1", name := "U One", email := "u1@example.org" }

/-- Fixture: the two-line cart of the 980-rupee scenario. -/
def sampleCart : List CartItem :=
  [{ id := "m1", name := "Chicken Rice", price := 350, image := "", quantity := 2 },
   { id := "m2", name := "Vegetable Fried Rice", price := 280, image := "", quantity := 1 }]

/-- Fixture: a state holding the sample cart and an authenticated user. -/
def sampleSt : St :=
  { cart := sampleCart, orders := [], currentUser := some sampleUser }

/-- Fixture: a state with an empty cart and no session. -/
def stEmptyCart : St :=
  { cart := [], orders := [], currentUser := none }

/-- Fixture: a state with a non-empty cart but no session. -/
def stNoUser : St :=
  { cart := sampleCart, orders := [], currentUser := none }

/-- Fixture constructor: a stored order with the given id, token, status
and creation time. -/
def mkSampleOrder (oid tok : String) (s : Status) (created : Nat) : Order :=
  { id := oid
    token := tok
    userId := "u1"
    userName := "U One"
    userEmail := "u1@example.org"
    items := []
    subtotal := 0
    tax := 0
    total := 0
    status := s
    statusHistory := [{ status := Status.pending, timestamp := created, note := "Order placed" }]
    createdAt := created
    updatedAt := created
    completedAt := none }

/-- Fixture: first creation request of the same-day token scenario. -/
def reqA : CreateReq :=
  { now := 5 * msPerDay + 1000, freshId := "a", cart := sampleCart, user := sampleUser }

/-- Fixture: second creation request of the same-day token scenario. -/
def reqB : CreateReq :=
  { now := 5 * msPerDay + 2000, freshId := "b", cart := sampleCart, user := sampleUser }

/-- Fixture: a pending order created at time 100. -/
def exPending : Order := mkSampleOrder "e1" "t1" Status.pending 100

/-- Fixture: a preparing order created at time 50. -/
def exPreparing : Order := mkSampleOrder "e2" "t2" Status.preparing 50

/-- Fixture: a completed order created at time 10. -/
def exCompleted : Order := mkSampleOrder "e3" "t3" Status.completed 10

/-- Fixture: a cancelled order created at time 20. -/
def exCancelled : Order := mkSampleOrder "e4" "t4" Status.cancelled 20

/-- Fixture: first of two orders sharing one token. -/
def dupA : Order := mkSampleOrder "da" "TKN-19700101-0001" Status.pending 10

/-- Fixture: second of two orders sharing one token. -/
def dupB : Order := mkSampleOrder "db" "TKN-19700101-0001" Status.pending 20

/-- Fixture: a ready order, target of completion transitions. -/
def ordR : Order := mkSampleOrder "ord1" "TKN-19700101-0001" Status.ready 50

/-- Fixture: the order created by `createOrder 1000 "w6" sampleSt`. -/
def w6order : Order :=
  ((createOrder 1000 "w6" sampleSt).1.order).getD (mkSampleOrder "x" "x" Status.pending 0)

/-- Fixture: the order after completing `ordR` at time 100. -/
def ord1upd : Order :=
  ((updateOrderStatus 100 "ord1" Status.completed "" [ordR]).2[0]?).getD ordR

instance (o : Order) : Decidable (statusInv o) :=
  inferInstanceAs
    (Decidable (o.statusHistory.getLast?.map HistoryEntry.status = some o.status))

/-! ### Decimal-digit lemmas: the token sequence number is recoverable -/

theorem natDigits_eq_of_ne (n : Nat) (h : n ≠ 0) :
    natDigits n = natDigits (n / 10) ++ [digitChar (n % 10)] := by
  rw [natDigits]
  simp [h]

theorem natDigitsAux_eq (fuel : Nat) :
    ∀ n acc, n ≤ fuel → natDigitsAux fuel n acc = natDigits n ++ acc := by
  induction fuel with
  | zero =>
    intro n acc hn
    have : n = 0 := Nat.le_zero.mp hn
    subst this
    rw [natDigits]
    simp [natDigitsAux]
  | succ fuel ih =>
    intro n acc hn
    by_cases h : n = 0
    · subst h
      rw [natDigits]
      simp [natDigitsAux]
    · have hdiv : n / 10 ≤ fuel := by
        have := Nat.div_lt_self (Nat.pos_of_ne_zero h) (show 1 < 10 by decide)
        omega
      rw [natDigitsAux, if_neg h, ih (n / 10) _ hdiv, natDigits_eq_of_ne n h,
        List.append_assoc]
      rfl

theorem digitVal_digitChar (r : Nat) (h : r < 10) : digitVal (digitChar r) = r := by
  interval_cases r <;> decide

theorem valFrom_append_digit (a : Nat) (l : List Char) (c : Char) :
    valFrom a (l ++ [c]) = 10 * valFrom a l + digitVal c := by
  simp [valFrom, List.foldl_append]

theorem valFrom_natDigits (n : Nat) :
    ∀ a, valFrom a (natDigits n) = a * 10 ^ (natDigits n).length + n := by
  induction n using Nat.strong_induction_on with
  | _ n ih =>
    intro a
    by_cases h : n = 0
    · subst h
      rw [natDigits]
      simp [valFrom]
    · rw [natDigits_eq_of_ne n h, valFrom_append_digit,
        ih (n / 10) (Nat.div_lt_self (Nat.pos_of_ne_zero h) (by decide)) a,
        digitVal_digitChar (n % 10) (Nat.mod_lt n (by decide))]
      rw [List.length_append, List.length_singleton, Nat.mul_add, Nat.pow_succ]
      have : 10 * (a * 10 ^ (natDigits (n / 10)).length) =
          a * (10 ^ (natDigits (n / 10)).length * 10) := by ring
      rw [this]
      have := Nat.div_add_mod n 10
      omega

theorem valFrom_replicate_zero (k : Nat) (l : List Char) :
    valFrom 0 (List.replicate k '0' ++ l) = valFrom 0 l := by
  induction k with
  | zero => simp
  | succ k ih =>
    rw [List.replicate_succ, List.cons_append]
    have : valFrom 0 (Char.ofNat 48 :: (List.replicate k (Char.ofNat 48) ++ l)) =
        valFrom (10 * 0 + digitVal (Char.ofNat 48)) (List.replicate k (Char.ofNat 48) ++ l) := rfl
    simpa [digitVal] using ih

theorem valFrom_natToString (n : Nat) : valFrom 0 (natToString n).data = n := by
  by_cases h : n = 0
  · subst h
    decide
  · rw [natToString, if_neg h]
    show valFrom 0 (natDigitsAux n n []) = n
    rw [natDigitsAux_eq n n [] (Nat.le_refl n), List.append_nil, valFrom_natDigits n 0]
    simp

theorem valFrom_padStart_natToString (n : Nat) :
    valFrom 0 (padStart (natToString n) 4 '0').data = n := by
  show valFrom 0 (List.replicate (4 - (natToString n).length) '0' ++ (natToString n).data) = n
  rw [valFrom_replicate_zero, valFrom_natToString]

theorem mkToken_data (d n : Nat) : (mkToken d n).data =
    "TKN-".data ++ (dateString d).data ++ "-".data
      ++ (padStart (natToString n) 4 '0').data := by
  rw [mkToken, String.data_append, String.data_append, String.data_append]

theorem mkToken_inj (d a b : Nat) (h : mkToken d a = mkToken d b) : a = b := by
  have hd := congrArg String.data h
  rw [mkToken_data, mkToken_data] at hd
  have h3 := List.append_cancel_left hd
  have h4 := congrArg (valFrom 0) h3
  rwa [valFrom_padStart_natToString, valFrom_padStart_natToString] at h4

/-! ### Sequential token issuance -/

theorem generateToken_eq (now : Nat) (os : List Order) :
    generateToken now os = mkToken (dayOf now) (countOnDay (dayOf now) os + 1) := rfl

theorem countOnDay_append_one (d : Nat) (os : List Order) (o : Order)
    (h : dayOf o.createdAt = d) :
    countOnDay d (os ++ [o]) = countOnDay d os + 1 := by
  rw [countOnDay, countOnDay, List.filter_append]
  simp [h]

theorem runCreates_cons (st : St) (r : CreateReq) (rs : List CreateReq) :
    runCreates st (r :: rs) = runCreates (runCreate st r) rs := rfl

theorem createOrder_cons_state (now : Nat) (fid : String) (x : CartItem)
    (xs : List CartItem) (os : List Order) (u : User) :
    ∃ o : Order,
      (createOrder now fid { cart := x :: xs, orders := os, currentUser := some u }).2.orders
          = os ++ [o] ∧
      o.createdAt = now ∧
      o.token = mkToken (dayOf now) (countOnDay (dayOf now) os + 1) :=
  ⟨_, rfl, rfl, generateToken_eq now os⟩

theorem runCreate_orders (st : St) (r : CreateReq) (h : r.cart ≠ []) :
    ∃ o : Order, (runCreate st r).orders = st.orders ++ [o] ∧
      o.createdAt = r.now ∧
      o.token = mkToken (dayOf r.now) (countOnDay (dayOf r.now) st.orders + 1) := by
  obtain ⟨x, xs, hc⟩ := List.exists_cons_of_ne_nil h
  have hst : runCreate st r =
      (createOrder r.now r.freshId
        { cart := x :: xs, orders := st.orders, currentUser := some r.user }).2 := by
    rw [runCreate, hc]
  rw [hst]
  exact createOrder_cons_state r.now r.freshId x xs st.orders r.user

theorem runCreates_tokens (rs : List CreateReq) (st : St) (D : Nat)
    (hday : ∀ r ∈ rs, dayOf r.now = D) (hcart : ∀ r ∈ rs, r.cart ≠ []) :
    ∃ news : List Order,
      (runCreates st rs).orders = st.orders ++ news ∧
      news.length = rs.length ∧
      ∀ k, k < rs.length →
        (news.map Order.token)[k]? =
          some (mkToken D (countOnDay D st.orders + k + 1)) := by
  induction rs generalizing st with
  | nil =>
    exact ⟨[], (List.append_nil st.orders).symm, rfl, fun k hk => by simp at hk⟩
  | cons r rs ih =>
    have hD : dayOf r.now = D := hday r (List.mem_cons_self r rs)
    obtain ⟨o, ho, hoc, hot⟩ := runCreate_orders st r (hcart r (List.mem_cons_self r rs))
    have hcount : countOnDay D (runCreate st r).orders = countOnDay D st.orders + 1 := by
      rw [ho]
      exact countOnDay_append_one D st.orders o (by rw [hoc, hD])
    obtain ⟨news, hn, hlen, htok⟩ := ih (runCreate st r)
      (fun x hx => hday x (List.mem_cons_of_mem r hx))
      (fun x hx => hcart x (List.mem_cons_of_mem r hx))
    refine ⟨o :: news, ?_, ?_, ?_⟩
    · rw [runCreates_cons, hn, ho, List.append_assoc]
      rfl
    · rw [List.length_cons, hlen]
      rfl
    · intro k hk
      cases k with
      | zero =>
        rw [List.map_cons, List.getElem?_cons_zero, hot, hD]
      | succ k =>
        rw [List.map_cons, List.getElem?_cons_succ]
        have hstep := htok k (by simpa using hk)
        rw [hcount] at hstep
        rw [hstep, show countOnDay D st.orders + 1 + k + 1 =
          countOnDay D st.orders + (k + 1) + 1 from by omega]

/-! ### Fold and lookup helpers -/

theorem foldl_add_map {α : Type} (f : α → Int) (l : List α) :
    ∀ a : Int, l.foldl (fun s x => s + f x) a = a + (l.map f).sum := by
  induction l with
  | nil => intro a; simp
  | cons x xs ih =>
    intro a
    rw [List.foldl_cons, ih (a + f x), List.map_cons, List.sum_cons, add_assoc]

theorem getCartSubtotal_eq (cart : List CartItem) :
    getCartSubtotal cart = (cart.map (fun i => i.price * (i.quantity : Int))).sum := by
  have h := foldl_add_map (fun i : CartItem => i.price * (i.quantity : Int)) cart 0
  rw [getCartSubtotal, h, zero_add]

theorem foldl_total_eq (os : List Order) :
    os.foldl (fun s o => s + o.total) 0 = (os.map Order.total).sum := by
  have h := foldl_add_map Order.total os 0
  rw [h, zero_add]

theorem findIdx?_some_entry {α : Type} (p : α → Bool) :
    ∀ (l : List α) (i : Nat), List.findIdx? p l = some i →
      ∃ x, l[i]? = some x ∧ p x = true := by
  intro l
  induction l with
  | nil => intro i h; rw [List.findIdx?_nil] at h; cases h
  | cons hd tl ih =>
    intro i h
    rw [List.findIdx?_cons] at h
    by_cases hp : p hd
    · rw [if_pos hp] at h
      cases h
      exact ⟨hd, List.getElem?_cons_zero, hp⟩
    · rw [if_neg hp, List.findIdx?_succ] at h
      cases hmap : List.findIdx? p tl with
      | none => rw [hmap] at h; cases h
      | some j =>
        rw [hmap] at h
        have hij : j + 1 = i := Option.some.inj h
        obtain ⟨x, hx, hpx⟩ := ih j hmap
        refine ⟨x, ?_, hpx⟩
        rw [← hij, List.getElem?_cons_succ]
        exact hx

/-! ### Shape of the transition operation -/

theorem updateOrderStatus_none (now : Nat) (oid note : String) (ns : Status)
    (orders : List Order)
    (hf : List.findIdx? (fun o => o.id == oid) orders = none) :
    updateOrderStatus now oid ns note orders =
      ({ success := false, message := "Order not found", order := none }, orders) := by
  rw [updateOrderStatus, hf]

theorem updateOrderStatus_some (now : Nat) (oid note : String) (ns : Status)
    (orders : List Order) (i : Nat) (order : Order)
    (hf : List.findIdx? (fun o => o.id == oid) orders = some i)
    (hg : orders[i]? = some order) :
    updateOrderStatus now oid ns note orders =
      ({ success := true
         message := "Order status updated to " ++ statusText ns
         order := some
           { order with
             statusHistory := order.statusHistory ++
               [{ status := ns
                  timestamp := now
                  note := if note = "" then "Status changed to " ++ statusText ns else note }]
             status := ns
             updatedAt := now
             completedAt := if ns = Status.completed then some now else order.completedAt } },
       orders.set i
         { order with
           statusHistory := order.statusHistory ++
             [{ status := ns
                timestamp := now
                note := if note = "" then "Status changed to " ++ statusText ns else note }]
           status := ns
           updatedAt := now
           completedAt := if ns = Status.completed then some now else order.completedAt }) := by
  simp only [updateOrderStatus, hf, hg]

theorem updateOrderStatus_snd_none (now : Nat) (oid note : String) (ns : Status)
    (orders : List Order)
    (hf : List.findIdx? (fun o => o.id == oid) orders = none) :
    (updateOrderStatus now oid ns note orders).2 = orders := by
  rw [updateOrderStatus_none now oid note ns orders hf]

theorem updateOrderStatus_snd_some (now : Nat) (oid note : String) (ns : Status)
    (orders : List Order) (i : Nat) (order : Order)
    (hf : List.findIdx? (fun o => o.id == oid) orders = some i)
    (hg : orders[i]? = some order) :
    (updateOrderStatus now oid ns note orders).2 =
      orders.set i
        { order with
           statusHistory := order.statusHistory ++
             [{ status := ns
                timestamp := now
                note := if note = "" then "Status changed to " ++ statusText ns else note }]
           status := ns
           updatedAt := now
           completedAt := if ns = Status.completed then some now else order.completedAt } := by
  rw [updateOrderStatus_some now oid note ns orders i order hf hg]

theorem statusInv_append_entry (h : List HistoryEntry) (e : HistoryEntry) (o : Order)
    (ho : o.statusHistory = h ++ [e]) (hs : o.status = e.status) : statusInv o := by
  show o.statusHistory.getLast?.map HistoryEntry.status = some o.status
  rw [ho, List.getLast?_concat, hs]
  rfl

/-! ### Claim theorems -/

/-- C1: for every non-empty cart and present current user, order creation
succeeds and returns an order whose total and subtotal both equal the sum
of price times quantity over the cart lines, whose tax is zero, and whose
status history is exactly one entry with status pending. -/
theorem claim1_create_totals (now : Nat) (fid : String) (st : St) (u : User)
    (hcart : st.cart ≠ []) (huser : st.currentUser = some u) :
    ∃ o : Order,
      (createOrder now fid st).1.success = true ∧
      (createOrder now fid st).1.order = some o ∧
      o.total = (st.cart.map (fun i => i.price * (i.quantity : Int))).sum ∧
      o.subtotal = (st.cart.map (fun i => i.price * (i.quantity : Int))).sum ∧
      o.tax = 0 ∧
      ∃ e, o.statusHistory = [e] ∧ e.status = Status.pending := by
  obtain ⟨cart0, os0, cu0⟩ := st
  obtain ⟨x, xs, hx⟩ := List.exists_cons_of_ne_nil hcart
  have hx' : cart0 = x :: xs := hx
  subst hx'
  have hu' : cu0 = some u := huser
  subst hu'
  refine ⟨_, rfl, rfl, ?_, ?_, rfl, _, rfl, rfl⟩
  · show getCartSubtotal (x :: xs) + 0 + 0 = _
    rw [add_zero, add_zero, getCartSubtotal_eq]
  · show getCartSubtotal (x :: xs) = _
    rw [getCartSubtotal_eq]

/-- C1 witness: on the concrete cart of two lines priced 350 times 2 and
280 times 1 with an authenticated user, creation succeeds and the order
has subtotal and total 980. -/
theorem claim1_witness :
    sampleSt.cart ≠ [] ∧ sampleSt.currentUser = some sampleUser ∧
    (∃ o : Order,
      (createOrder 1000 "w1" sampleSt).1.success = true ∧
      (createOrder 1000 "w1" sampleSt).1.order = some o ∧
      o.total = (sampleSt.cart.map (fun i => i.price * (i.quantity : Int))).sum ∧
      o.subtotal = (sampleSt.cart.map (fun i => i.price * (i.quantity : Int))).sum ∧
      o.tax = 0 ∧
      ∃ e, o.statusHistory = [e] ∧ e.status = Status.pending) ∧
    ((createOrder 1000 "w1" sampleSt).1.order.map Order.subtotal = some 980) ∧
    ((createOrder 1000 "w1" sampleSt).1.order.map Order.total = some 980) :=
  ⟨by decide, rfl, claim1_create_totals 1000 "w1" sampleSt sampleUser (by decide) rfl,
   by decide, by decide⟩

/-- C6: every order returned by the creation operation has a non-empty
status history whose first entry is pending with timestamp equal to the
order's createdAt. -/
theorem claim6_first_entry (now : Nat) (fid : String) (st : St) (o : Order)
    (h : (createOrder now fid st).1.order = some o) :
    o.statusHistory ≠ [] ∧
    o.statusHistory.head?.map HistoryEntry.status = some Status.pending ∧
    o.statusHistory.head?.map HistoryEntry.timestamp = some o.createdAt := by
  obtain ⟨cart0, os0, cu0⟩ := st
  cases cart0 with
  | nil =>
    have h2 : (none : Option Order) = some o := h
    cases h2
  | cons x xs =>
    cases cu0 with
    | none =>
      have h2 : (none : Option Order) = some o := h
      cases h2
    | some u =>
      have hlit := Option.some.inj h
      subst hlit
      exact ⟨List.cons_ne_nil _ _, rfl, rfl⟩

/-- C6 witness: the order created from the sample state has one pending
history entry stamped with its creation time. -/
theorem claim6_witness :
    (createOrder 1000 "w6" sampleSt).1.order = some w6order ∧
    (w6order.statusHistory ≠ [] ∧
     w6order.statusHistory.head?.map HistoryEntry.status = some Status.pending ∧
     w6order.statusHistory.head?.map HistoryEntry.timestamp = some w6order.createdAt) :=
  ⟨rfl, claim6_first_entry 1000 "w6" sampleSt w6order rfl⟩

/-- C8 counterexample: with an empty cart and no current user, creation
fails with the empty-cart message, not the not-authenticated message the
claim requires whenever no user is present. -/
theorem claim8_counterexample :
    stEmptyCart.currentUser = none ∧
    (createOrder 0 "i0" stEmptyCart).1.success = false ∧
    (createOrder 0 "i0" stEmptyCart).1.message = "Cart is empty" ∧
    (createOrder 0 "i0" stEmptyCart).1.message ≠ "Please login to place order" := by
  decide

/-- C8 amended: creation on an empty cart fails with the empty-cart
message and leaves the state unchanged; creation on a non-empty cart with
no current user fails with the not-authenticated message and leaves the
state unchanged (the empty-cart check takes precedence). -/
theorem claim8_failures (now : Nat) (fid : String) (st : St) :
    (st.cart = [] →
      createOrder now fid st =
        ({ success := false, message := "Cart is empty", order := none }, st)) ∧
    (st.cart ≠ [] → st.currentUser = none →
      createOrder now fid st =
        ({ success := false, message := "Please login to place order", order := none }, st)) := by
  obtain ⟨cart0, os0, cu0⟩ := st
  constructor
  · intro hc
    have hc' : cart0 = [] := hc
    subst hc'
    rfl
  · intro hc hcu
    obtain ⟨x, xs, hx⟩ := List.exists_cons_of_ne_nil hc
    subst hx
    have hcu' : cu0 = none := hcu
    subst hcu'
    rfl

/-- C8 witness: both failure branches at concrete states. -/
theorem claim8_witness :
    createOrder 0 "i8" stEmptyCart =
      ({ success := false, message := "Cart is empty", order := none }, stEmptyCart) ∧
    createOrder 0 "i8" stNoUser =
      ({ success := false, message := "Please login to place order", order := none }, stNoUser) :=
  ⟨(claim8_failures 0 "i8" stEmptyCart).1 rfl,
   (claim8_failures 0 "i8" stNoUser).2 (by decide) rfl⟩

/-- C3: the status field equals the status of the last history entry for
every order after creation and after every transition with any status
argument, and a transition only ever appends to a history (per index,
the old history is a prefix of the new one, so entries are preserved in
order and the history never shrinks). -/
theorem claim3_status_history (now : Nat) (fid oid note : String) (ns : Status)
    (st : St) (orders : List Order)
    (hc : ∀ o ∈ st.orders, statusInv o) (hu : ∀ o ∈ orders, statusInv o) :
    (∀ o ∈ (createOrder now fid st).2.orders, statusInv o) ∧
    (∀ o ∈ (updateOrderStatus now oid ns note orders).2, statusInv o) ∧
    (∀ (i : Nat) (o o' : Order), orders[i]? = some o →
      ((updateOrderStatus now oid ns note orders).2)[i]? = some o' →
      ∃ t, o'.statusHistory = o.statusHistory ++ t) := by
  refine ⟨?_, ?_, ?_⟩
  · obtain ⟨cart0, os0, cu0⟩ := st
    cases cart0 with
    | nil => exact hc
    | cons x xs =>
      cases cu0 with
      | none => exact hc
      | some u =>
        intro o ho
        rcases List.mem_append.mp ho with hmem | hmem
        · exact hc o hmem
        · rw [List.mem_singleton.mp hmem]
          rfl
  · cases hf : List.findIdx? (fun o => o.id == oid) orders with
    | none =>
      rw [updateOrderStatus_snd_none now oid note ns orders hf]
      exact hu
    | some i =>
      cases hg : orders[i]? with
      | none =>
        obtain ⟨x, hx, _⟩ := findIdx?_some_entry _ orders i hf
        rw [hx] at hg
        cases hg
      | some order =>
        rw [updateOrderStatus_snd_some now oid note ns orders i order hf hg]
        intro o ho
        rcases List.mem_or_eq_of_mem_set ho with hmem | heq
        · exact hu o hmem
        · subst heq
          exact statusInv_append_entry order.statusHistory _ _ rfl rfl
  · cases hf : List.findIdx? (fun o => o.id == oid) orders with
    | none =>
      intro i o o' hi hi'
      rw [updateOrderStatus_snd_none now oid note ns orders hf, hi] at hi'
      rw [Option.some.inj hi']
      exact ⟨[], (List.append_nil _).symm⟩
    | some i0 =>
      cases hg : orders[i0]? with
      | none =>
        obtain ⟨x, hx, _⟩ := findIdx?_some_entry _ orders i0 hf
        rw [hx] at hg
        cases hg
      | some order =>
        intro i o o' hi hi'
        rw [updateOrderStatus_snd_some now oid note ns orders i0 order hf hg] at hi'
        by_cases hii : i0 = i
        · subst hii
          obtain ⟨hlt, _⟩ := List.getElem?_eq_some.mp hg
          rw [List.getElem?_set_self hlt] at hi'
          have hup := Option.some.inj hi'
          have hoo : order = o := Option.some.inj (hg.symm.trans hi)
          rw [← hup, ← hoo]
          exact ⟨_, rfl⟩
        · rw [List.getElem?_set_ne hii, hi] at hi'
          rw [Option.some.inj hi']
          exact ⟨[], (List.append_nil _).symm⟩

/-- C3 witness: the invariant holds after a concrete creation and a
concrete transition on a singleton collection. -/
theorem claim3_witness :
    (∀ o ∈ sampleSt.orders, statusInv o) ∧ (∀ o ∈ [exPending], statusInv o) ∧
    ((∀ o ∈ (createOrder 60 "f3" sampleSt).2.orders, statusInv o) ∧
     (∀ o ∈ (updateOrderStatus 60 "e1" Status.preparing "n" [exPending]).2, statusInv o) ∧
     (∀ (i : Nat) (o o' : Order), [exPending][i]? = some o →
       ((updateOrderStatus 60 "e1" Status.preparing "n" [exPending]).2)[i]? = some o' →
       ∃ t, o'.statusHistory = o.statusHistory ++ t)) :=
  ⟨by decide, by decide,
   claim3_status_history 60 "f3" "e1" "n" Status.preparing sampleSt [exPending]
     (by decide) (by decide)⟩

/-- C4: a transition on an id not present in the collection returns the
order-not-found failure and leaves the collection unchanged; a completed
transition on a present id returns an order whose completedAt is the
transition time, which under a monotonic clock is at least its
createdAt. -/
theorem claim4_transition (now : Nat) (oid note : String) (ns : Status)
    (orders : List Order) :
    ((∀ o ∈ orders, o.id ≠ oid) →
      updateOrderStatus now oid ns note orders =
        ({ success := false, message := "Order not found", order := none }, orders)) ∧
    ((∃ o ∈ orders, o.id = oid) → (∀ o ∈ orders, o.createdAt ≤ now) →
      ∃ o', (updateOrderStatus now oid Status.completed note orders).1.order = some o' ∧
        o'.completedAt = some now ∧ o'.createdAt ≤ now) := by
  constructor
  · intro hall
    apply updateOrderStatus_none
    rw [List.findIdx?_eq_none_iff]
    intro x hx
    rw [beq_eq_false_iff_ne]
    exact hall x hx
  · intro hex hmono
    cases hf : List.findIdx? (fun o => o.id == oid) orders with
    | none =>
      rw [List.findIdx?_eq_none_iff] at hf
      obtain ⟨o, ho, hoid⟩ := hex
      have hfo := hf o ho
      rw [beq_eq_false_iff_ne] at hfo
      exact absurd hoid hfo
    | some i =>
      obtain ⟨x, hx, hpx⟩ := findIdx?_some_entry _ orders i hf
      rw [updateOrderStatus_some now oid note Status.completed orders i x hf hx]
      refine ⟨_, rfl, ?_, ?_⟩
      · show (if Status.completed = Status.completed then some now else x.completedAt) =
          some now
        rw [if_pos rfl]
      · exact hmono x (List.getElem?_mem hx)

/-- C4 witness: a transition on an unknown id fails and changes nothing,
and completing the concrete ready order stamps completedAt at the
transition time 100, after its creation time 50. -/
theorem claim4_witness :
    (updateOrderStatus 100 "zz" Status.completed "" [ordR] =
      ({ success := false, message := "Order not found", order := none }, [ordR])) ∧
    (∃ o', (updateOrderStatus 100 "ord1" Status.completed "" [ordR]).1.order = some o' ∧
      o'.completedAt = some 100 ∧ o'.createdAt ≤ 100) :=
  ⟨(claim4_transition 100 "zz" "" Status.completed [ordR]).1 (by decide),
   (claim4_transition 100 "ord1" "" Status.completed [ordR]).2 (by decide) (by decide)⟩

/-- C7 counterexample: completing the same order twice, at times 100 and
then 200 under a monotonic clock, first sets completedAt to 100 and then
overwrites it to 200 -- so completedAt is not written at most once and a
later transition does change it, contrary to the claim. -/
theorem claim7_counterexample :
    ((updateOrderStatus 100 "ord1" Status.completed "" [ordR]).2.map Order.completedAt
      = [some 100]) ∧
    ((updateOrderStatus 200 "ord1" Status.completed ""
        ((updateOrderStatus 100 "ord1" Status.completed "" [ordR]).2)).2.map Order.completedAt
      = [some 200]) := by
  decide

/-- C7 amended: a transition writes completedAt only when its new status
is completed, in which case it sets it to the transition time (possibly
overwriting an earlier value on a repeated completed transition); a
transition to any other status leaves every completedAt unchanged. -/
theorem claim7_completedAt (now : Nat) (oid note : String) (ns : Status)
    (orders : List Order) (i : Nat) (o o' : Order)
    (hi : orders[i]? = some o)
    (hi' : ((updateOrderStatus now oid ns note orders).2)[i]? = some o') :
    o'.completedAt = o.completedAt ∨ (ns = Status.completed ∧ o'.completedAt = some now) := by
  cases hf : List.findIdx? (fun x => x.id == oid) orders with
  | none =>
    rw [updateOrderStatus_none now oid note ns orders hf, hi] at hi'
    exact Or.inl (by rw [Option.some.inj hi'])
  | some i0 =>
    cases hg : orders[i0]? with
    | none =>
      obtain ⟨x, hx, _⟩ := findIdx?_some_entry _ orders i0 hf
      rw [hx] at hg
      cases hg
    | some order =>
      rw [updateOrderStatus_snd_some now oid note ns orders i0 order hf hg] at hi'
      by_cases hii : i0 = i
      · subst hii
        obtain ⟨hlt, _⟩ := List.getElem?_eq_some.mp hg
        rw [List.getElem?_set_self hlt] at hi'
        have hup := Option.some.inj hi'
        have hoo : order = o := Option.some.inj (hg.symm.trans hi)
        by_cases hns : ns = Status.completed
        · refine Or.inr ⟨hns, ?_⟩
          rw [← hup]
          show (if ns = Status.completed then some now else order.completedAt) = some now
          rw [if_pos hns]
        · refine Or.inl ?_
          rw [← hup, ← hoo]
          show (if ns = Status.completed then some now else order.completedAt) =
            order.completedAt
          rw [if_neg hns]
      · rw [List.getElem?_set_ne hii, hi] at hi'
        exact Or.inl (by rw [Option.some.inj hi'])

/-- C7 amended witness: completing the concrete ready order at time 100
takes the completed branch of the amended statement. -/
theorem claim7_witness :
    ([ordR][0]? = some ordR) ∧
    ((updateOrderStatus 100 "ord1" Status.completed "" [ordR]).2[0]? = some ord1upd) ∧
    (ord1upd.completedAt = ordR.completedAt ∨
      (Status.completed = Status.completed ∧ ord1upd.completedAt = some 100)) :=
  ⟨rfl, by decide,
   claim7_completedAt 100 "ord1" "" Status.completed [ordR] 0 ordR ord1upd rfl (by decide)⟩

/-- C2: running a sequence of creations on one calendar day, with
non-empty carts, appends one order per creation; the k-th new token is
`TKN-YYYYMMDD-NNNN` for that day with NNNN the count of already-existing
same-day orders plus k plus 1 (so the NNNN values are strictly
increasing in creation order), and the tokens are pairwise distinct. -/
theorem claim2_sequential_tokens (rs : List CreateReq) (st : St) (D : Nat)
    (hday : ∀ r ∈ rs, dayOf r.now = D) (hcart : ∀ r ∈ rs, r.cart ≠ []) :
    ∃ news : List Order,
      (runCreates st rs).orders = st.orders ++ news ∧
      news.length = rs.length ∧
      (∀ k, k < rs.length →
        (news.map Order.token)[k]? =
          some (mkToken D (countOnDay D st.orders + k + 1))) ∧
      (∀ i j, i < j → j < rs.length →
        (news.map Order.token)[i]? ≠ (news.map Order.token)[j]?) := by
  obtain ⟨news, h1, h2, h3⟩ := runCreates_tokens rs st D hday hcart
  refine ⟨news, h1, h2, h3, ?_⟩
  intro i j hij hj hcon
  rw [h3 i (by omega), h3 j hj] at hcon
  have hmk := mkToken_inj D _ _ (Option.some.inj hcon)
  omega

/-- C2 witness: two creations on day 5 from the empty store produce the
appended orders with tokens numbered 1 and 2, pairwise distinct. -/
theorem claim2_witness :
    (∀ r ∈ [reqA, reqB], dayOf r.now = 5) ∧
    (∀ r ∈ [reqA, reqB], r.cart ≠ []) ∧
    (∃ news : List Order,
      (runCreates sampleSt [reqA, reqB]).orders = sampleSt.orders ++ news ∧
      news.length = ([reqA, reqB] : List CreateReq).length ∧
      (∀ k, k < ([reqA, reqB] : List CreateReq).length →
        (news.map Order.token)[k]? =
          some (mkToken 5 (countOnDay 5 sampleSt.orders + k + 1))) ∧
      (∀ i j, i < j → j < ([reqA, reqB] : List CreateReq).length →
        (news.map Order.token)[i]? ≠ (news.map Order.token)[j]?)) :=
  ⟨by decide, by decide,
   claim2_sequential_tokens [reqA, reqB] sampleSt 5 (by decide) (by decide)⟩

/-- C5: the daily report's revenue is the sum of totals over exactly the
orders that are completed and were created on the report's calendar day
(creation-date filter, so an order created another day contributes
nothing whatever its completion), and the average order value is that
revenue divided by the number of such orders, or 0 when there are
none. -/
theorem claim5_daily_report (orders : List Order) (date : Nat) :
    (getDailyReport orders date).revenue =
      ((orders.filter (fun o =>
        sameDayB o.createdAt date && o.status == Status.completed)).map Order.total).sum ∧
    (getDailyReport orders date).averageOrderValue =
      (if (orders.filter (fun o =>
            sameDayB o.createdAt date && o.status == Status.completed)).length = 0
        then 0
        else (((orders.filter (fun o =>
            sameDayB o.createdAt date && o.status == Status.completed)).map
              Order.total).sum : Rat) /
          ((orders.filter (fun o =>
            sameDayB o.createdAt date && o.status == Status.completed)).length : Rat)) := by
  have hff : (orders.filter (fun o => sameDayB o.createdAt date)).filter
        (fun o => o.status == Status.completed)
      = orders.filter (fun o => sameDayB o.createdAt date && o.status == Status.completed) := by
    rw [List.filter_filter]
    exact List.filter_congr (fun a _ => by rw [Bool.and_comm])
  constructor
  · show ((orders.filter (fun o => sameDayB o.createdAt date)).filter
        (fun o => o.status == Status.completed)).foldl (fun sum o => sum + o.total) 0 = _
    rw [hff, foldl_total_eq]
  · show (if 0 < ((orders.filter (fun o => sameDayB o.createdAt date)).filter
          (fun o => o.status == Status.completed)).length then _ else _) = _
    rw [hff, foldl_total_eq]
    rcases Nat.eq_zero_or_pos (orders.filter (fun o =>
        sameDayB o.createdAt date && o.status == Status.completed)).length with hz | hp
    · rw [hz, if_neg (by omega), if_pos rfl]
    · rw [if_pos hp, if_neg (by omega)]

/-- C9: the active-orders view consists of exactly the pending, preparing
and ready orders, sorted ascending by creation time; on the concrete
four-status collection it returns exactly the preparing and pending
orders, oldest first. -/
theorem claim9_active_orders (orders : List Order) :
    ((getActiveOrders orders).Perm
      (orders.filter (fun o =>
        [Status.pending, Status.preparing, Status.ready].contains o.status))) ∧
    List.Sorted byCreatedAsc (getActiveOrders orders) ∧
    getActiveOrders [exPending, exPreparing, exCompleted, exCancelled] =
      [exPreparing, exPending] := by
  refine ⟨?_, ?_, by decide⟩
  · exact List.perm_insertionSort byCreatedAsc _
  · exact List.sorted_insertionSort byCreatedAsc _

/-- C10: whenever some stored order carries the looked-up token -- in
particular when several do -- the lookup returns exactly the first such
order in storage order and never a later duplicate. -/
theorem claim10_token_lookup (orders : List Order) (t : String)
    (h : ∃ o ∈ orders, o.token = t) :
    ∃ (o : Order) (pre post : List Order),
      getOrderByToken t orders = some o ∧ o.token = t ∧
      orders = pre ++ o :: post ∧ ∀ x ∈ pre, x.token ≠ t := by
  have hsome : (orders.find? (fun o => o.token == t)).isSome := by
    rw [List.find?_isSome]
    obtain ⟨o, ho, he⟩ := h
    exact ⟨o, ho, by rw [beq_iff_eq]; exact he⟩
  obtain ⟨o, hfind⟩ := Option.isSome_iff_exists.mp hsome
  obtain ⟨hp, pre, post, hsplit, hpre⟩ := List.find?_eq_some.mp hfind
  refine ⟨o, pre, post, hfind, by rwa [beq_iff_eq] at hp, hsplit, ?_⟩
  intro x hx
  have hnx := hpre x hx
  rw [Bool.not_eq_eq_eq_not, Bool.not_true, beq_eq_false_iff_ne] at hnx
  exact hnx

/-- C10 witness: on two stored orders sharing one token, the lookup
returns the first of them. -/
theorem claim10_witness :
    (∃ o ∈ [dupA, dupB], o.token = "TKN-19700101-0001") ∧
    (getOrderByToken "TKN-19700101-0001" [dupA, dupB] = some dupA) ∧
    (∃ (o : Order) (pre post : List Order),
      getOrderByToken "TKN-19700101-0001" [dupA, dupB] = some o ∧
      o.token = "TKN-19700101-0001" ∧
      [dupA, dupB] = pre ++ o :: post ∧ ∀ x ∈ pre, x.token ≠ "TKN-19700101-0001") :=
  ⟨by decide, by decide,
   claim10_token_lookup [dupA, dupB] "TKN-19700101-0001" (by decide)⟩

end Canteen
